import Mathlib

/-!
# Verification of `scripts/stage_for_chai.py`

A shallow embedding of the staging script that converts ColabFold output
artifacts into the MSA / template format expected by Chai-1, together with
proofs of the specified properties.

Files and directories are abstracted away: the a3m reader
(`read_colabfold_a3m`, an external collaborator) yields, per alignment file,
an insertion-ordered association list from query identifier to the ordered
list of `(header, sequence)` records for that query.  Python `dict`s are
embedded as insertion-ordered association lists, writes to disk as an
explicit list of written files, and raised exceptions as `Except` errors.
-/

deriving instance DecidableEq for Except

namespace StageForChai

/-- A fasta record, as produced by `read_colabfold_a3m` and
`read_colabfold_inputs` (`chai_lab.data.parsing.fasta.Fasta`). -/
structure Fasta where
  header : String
  sequence : String
deriving DecidableEq, Repr

/-- The members of `chai_lab.data.parsing.msas.data_source.MSADataSource`
used by the script.  Only identity of the `.value` strings matters here, so
the enum is kept abstract with one constructor per member. -/
inductive MSADataSource where
  | query
  | uniref90
  | bfd_uniclust
deriving DecidableEq, Repr

/-- One row of the merged, annotated MSA table
(columns `sequence, source_database, pairing_key, comment`). -/
structure MSARecord where
  sequence : String
  source_database : MSADataSource
  pairing_key : String
  comment : String
deriving DecidableEq, Repr

/-- The exceptions the script can raise while staging one identifier.
`pairedLengthMismatch`, `keySetMismatch` and `seqSetMismatch` are bare
`assert` statements in the Python source (the spec's `ConsistencyError`
taxonomy); `noMatch` is the bare `assert len(chai_seq_matches)`;
`missingQueryId` is the `KeyError` escaping the `dict` lookup during
template remapping (the spec's `MappingError`); `indexError` is the
`IndexError` from `uniref_msa[query][0]` on an empty row list. -/
inductive StageError where
  | pairedLengthMismatch
  | keySetMismatch
  | indexError (query : String)
  | seqSetMismatch
  | noMatch (id : String)
  | missingQueryId (query : String)
deriving DecidableEq, Repr

/-- The message attached to each exception.  The consistency `assert`s in
the source are bare (`AssertionError` with no argument), so their message
is the empty string. -/
def errorMessage : StageError → String
  | .pairedLengthMismatch => ""
  | .keySetMismatch => ""
  | .seqSetMismatch => ""
  | .noMatch _ => ""
  | .indexError _ => "list index out of range"
  | .missingQueryId q => q

/-- Python `dict` lookup on an insertion-ordered association list. -/
def dictGet {α : Type} (d : List (String × α)) (k : String) : Option α :=
  match d with
  | [] => none
  | (k2, v) :: rest => if k2 = k then some v else dictGet rest k

/-- The key view of a `dict` (`d.keys()`), in insertion order. -/
def dictKeys {α : Type} (d : List (String × α)) : List String :=
  d.map (fun kv => kv.1)

/-- Python `set(a) == set(b)` on two lists of strings: mutual inclusion. -/
def sameStringSet (a b : List String) : Bool :=
  (a.all fun x => decide (x ∈ b)) && (b.all fun x => decide (x ∈ a))

/-- The record built for row `i` of the paired MSA of one query: row 0 is
the query itself (`MSADataSource.QUERY`, no pairing key); every later row
is labeled `UNIREF90` and carries `str(i)` as its pairing key. -/
def pairedRecord (i : Nat) (row : Fasta) : MSARecord :=
  { sequence := row.sequence
    source_database := if i = 0 then .query else .uniref90
    pairing_key := if i > 0 then Nat.repr i else ""
    comment := "null" }

/-- The record built for a non-identity row of the single-chain uniref
(narrow) MSA. -/
def unirefRecord (row : Fasta) : MSARecord :=
  { sequence := row.sequence
    source_database := .uniref90
    pairing_key := ""
    comment := "null" }

/-- The record built for a non-identity row of the single-chain
environmental (broad) MSA. -/
def envRecord (row : Fasta) : MSARecord :=
  { sequence := row.sequence
    source_database := .bfd_uniclust
    pairing_key := ""
    comment := "null" }

/-- The `msa_rows` list built for one query: all paired rows (annotated by
index), then the uniref rows minus its first row, then the environmental
rows minus its first row. -/
def mergedRows (pairedRows unirefRows envRows : List Fasta) : List MSARecord :=
  (pairedRows.enum.map fun p => pairedRecord p.1 p.2)
    ++ ((unirefRows.drop 1).map unirefRecord)
    ++ ((envRows.drop 1).map envRecord)

/-- Modelled from the spec: `expected_basename` is an external collaborator
(`chai_lab.data.parsing.msas.aligned_pqt`) that derives the output file
name deterministically from the content of the query sequence (a
content-addressed `hash.aligned.pqt` scheme).  The opaque hash is modelled
by the sequence itself, preserving determinism and content-addressing. -/
def expected_basename (query_sequence : String) : String :=
  query_sequence ++ ".aligned.pqt"

/-- One `.aligned.pqt` file written to the MSA output folder. -/
structure WrittenFile where
  basename : String
  table : List MSARecord
deriving DecidableEq, Repr

/-- The per-query loop of `gather_colabfold_msas`: for each query of the
paired MSA (in insertion order) look up the two single-chain MSAs, take the
canonical query sequence from the first uniref row, write the merged table
under the content-addressed name, and record `query ↦ query_seq`.  Returns
the files written before any exception together with the outcome. -/
def gatherQueries (uniref env : List (String × List Fasta)) :
    List (String × List Fasta) →
      List WrittenFile × Except StageError (List (String × String))
  | [] => ([], Except.ok [])
  | (query, pairedRows) :: rest =>
    match dictGet uniref query, dictGet env query with
    | some unirefRows, some envRows =>
      match unirefRows with
      | [] => ([], Except.error (.indexError query))
      | q0 :: tail =>
        let file : WrittenFile :=
          { basename := expected_basename q0.sequence
            table := mergedRows pairedRows (q0 :: tail) envRows }
        let r := gatherQueries uniref env rest
        (file :: r.1, r.2.map fun m => (query, q0.sequence) :: m)
    | _, _ => ([], Except.error (.missingQueryId query))

/-- `gather_colabfold_msas`, with the three a3m files already read into
association lists.  First the table-wide check that all paired hit lists
have one common length (`assert len(paired_lengths) == 1`), then the check
that the three key sets coincide, then the per-query merge loop. -/
def gather_colabfold_msas (paired uniref env : List (String × List Fasta)) :
    List WrittenFile × Except StageError (List (String × String)) :=
  if (paired.map fun kv => kv.2.length).dedup.length = 1 then
    if sameStringSet (dictKeys uniref) (dictKeys env)
        && sameStringSet (dictKeys env) (dictKeys paired) then
      gatherQueries uniref env paired
    else ([], Except.error .keySetMismatch)
  else ([], Except.error .pairedLengthMismatch)

/-- One row of the parsed `pdb70.m8` template-hit table: the `query_id`
column plus the remaining columns, which the script never inspects and
passes through unchanged. -/
structure TemplateHit where
  query_id : String
  rest : List String
deriving DecidableEq, Repr

/-- The core of `gather_colabfold_templates`: the column assignment
`templates["query_id"] = templates["query_id"].apply(lambda s:
chain_id_mapping[str(s)])`.  Each row's `query_id` is replaced by its image
under the mapping; a missing key raises (`KeyError`) and aborts the whole
remapping, so nothing is written in that case. -/
def gather_colabfold_templates (chain_id_mapping : List (String × String)) :
    List TemplateHit → Except StageError (List TemplateHit)
  | [] => Except.ok []
  | hit :: hits =>
    match dictGet chain_id_mapping hit.query_id with
    | none => Except.error (.missingQueryId hit.query_id)
    | some cid =>
      (gather_colabfold_templates chain_id_mapping hits).map
        fun r => { hit with query_id := cid } :: r

/-- Modelled from the spec: `get_chain_letter` is an external collaborator
(`chai_lab.data.io.cif_utils`); chain 1 maps to "A", chain 2 to "B", and so
on alphabetically. -/
def get_chain_letter (i : Nat) : String :=
  String.singleton (Char.ofNat (64 + i))

/-- The complex built by `read_colabfold_inputs` for one row of the input
csv: the colon-separated chain sequences become fasta entries with headers
`protein|A`, `protein|B`, ... in order. -/
def read_colabfold_complex (sequences : List String) : List Fasta :=
  sequences.enum.map fun p =>
    { header := "protein|" ++ get_chain_letter (p.1 + 1), sequence := p.2 }

/-- The characters after the first `'|'`, if any. -/
def afterFirstBar : List Char → Option (List Char)
  | [] => none
  | c :: cs => if c = '|' then some cs else afterFirstBar cs

/-- `header.split("|", maxsplit=1)[-1]`: everything after the first `|`
separator (or the whole header when there is none). -/
def header_chain_id (header : String) : String :=
  match afterFirstBar header.data with
  | some rest => String.mk rest
  | none => header

/-- The per-identifier loop in `main` that builds `colab_id_to_chai_id`:
for each colabfold identifier (in insertion order) collect the declared
chains whose sequence equals its canonical sequence, assert the list is
non-empty, and `pop()` its last element, taking the chain id after the
first `|` of its header. -/
def assignChainIds (sequences : List Fasta) :
    List (String × String) → Except StageError (List (String × String))
  | [] => Except.ok []
  | (cfid, seq) :: rest =>
    let chai_seq_matches := sequences.filter fun s => s.sequence = seq
    match chai_seq_matches.getLast? with
    | none => Except.error (.noMatch cfid)
    | some m =>
      (assignChainIds sequences rest).map
        fun r => (cfid, header_chain_id m.header) :: r

/-- The cross-reference construction in `main`: first the check
`assert set(colabfold_id_to_seq.values()) == set(f.sequence for f in
sequences)`, then the assignment loop. -/
def build_chain_id_mapping (colabfold_id_to_seq : List (String × String))
    (sequences : List Fasta) : Except StageError (List (String × String)) :=
  if sameStringSet (colabfold_id_to_seq.map fun kv => kv.2)
      (sequences.map fun f => f.sequence) then
    assignChainIds sequences colabfold_id_to_seq
  else Except.error .seqSetMismatch

/-- Semantic counterpart of Python set equality on two lists. -/
def sameSetProp (a b : List String) : Prop := ∀ x, x ∈ a ↔ x ∈ b

/-! ### Concrete fixtures used by witness and counterexample theorems -/

/-- A fasta row whose header is irrelevant to the staging logic. -/
def seqRow (s : String) : Fasta := { header := "hit", sequence := s }

/-- Paired set of the spec's row-count fixture: 3 rows for one query. -/
def fixPaired3 : List (String × List Fasta) :=
  [("q1", [seqRow "SEQ", seqRow "P1", seqRow "P2"])]

/-- Narrow (uniref) set of the spec's row-count fixture: 4 rows. -/
def fixUniref4 : List (String × List Fasta) :=
  [("q1", [seqRow "SEQ", seqRow "U1", seqRow "U2", seqRow "U3"])]

/-- Broad (environmental) set of the spec's row-count fixture: 2 rows. -/
def fixEnv2 : List (String × List Fasta) :=
  [("q1", [seqRow "SEQ", seqRow "E1"])]

/-- Paired set whose identity row is "XXX". -/
def fixPairedX : List (String × List Fasta) := [("q1", [seqRow "XXX"])]

/-- Narrow set whose identity row is "YYY". -/
def fixUnirefY : List (String × List Fasta) := [("q1", [seqRow "YYY"])]

/-- Broad set whose identity row is "ZZZ". -/
def fixEnvZ : List (String × List Fasta) := [("q1", [seqRow "ZZZ"])]

/-- A non-rectangular paired set: hit lists of lengths 1 and 2. -/
def fixRagged : List (String × List Fasta) :=
  [("q1", [seqRow "SEQ"]), ("q2", [seqRow "SEQ", seqRow "P1"])]

/-- A narrow set carrying an extra identifier "q2". -/
def fixUnirefExtra : List (String × List Fasta) :=
  [("q1", [seqRow "YYY"]), ("q2", [seqRow "WWW"])]

/-- The spec's two-chain complex: sequences "AAA", "BBB". -/
def fixChainsAB : List Fasta := read_colabfold_complex ["AAA", "BBB"]

/-- The spec's upstream queries: q1 maps to "AAA", q2 to "BBB". -/
def fixIdsAB : List (String × String) := [("q1", "AAA"), ("q2", "BBB")]

/-- A homo-dimer complex: both declared chains carry sequence "AAA". -/
def fixChainsAA : List Fasta := read_colabfold_complex ["AAA", "AAA"]

/-- Two upstream identifiers that both resolve to sequence "AAA". -/
def fixIdsAA : List (String × String) := [("q1", "AAA"), ("q2", "AAA")]

/-- The spec's template-hit fixture rows. -/
def fixHits : List TemplateHit :=
  [{ query_id := "q1", rest := ["10"] }, { query_id := "q2", rest := ["5"] }]

/-- The spec's cross-reference mapping fixture. -/
def fixMapping : List (String × String) := [("q1", "A"), ("q2", "B")]

/-- A mapping that lacks an entry for "q2". -/
def fixMappingA : List (String × String) := [("q1", "A")]

/-! ### General helper lemmas -/

/-- `sameStringSet` decides Python set equality. -/
theorem sameStringSet_iff (a b : List String) :
    sameStringSet a b = true ↔ sameSetProp a b := by
  constructor
  · intro h x
    simp only [sameStringSet, Bool.and_eq_true, List.all_eq_true,
      decide_eq_true_eq] at h
    exact ⟨fun hx => h.1 x hx, fun hx => h.2 x hx⟩
  · intro h
    simp only [sameStringSet, Bool.and_eq_true, List.all_eq_true,
      decide_eq_true_eq]
    exact ⟨fun x hx => (h x).mp hx, fun x hx => (h x).mpr hx⟩

/-- The accumulator of `Nat.toDigitsCore` never shrinks. -/
theorem toDigitsCore_length_ge (b : Nat) :
    ∀ (f n : Nat) (l : List Char), l.length ≤ (Nat.toDigitsCore b f n l).length := by
  intro f
  induction f with
  | zero => intro n l; rw [Nat.toDigitsCore]
  | succ f ih =>
    intro n l
    rw [Nat.toDigitsCore]
    by_cases h : n / b = 0
    · simp [h]
    · simp only [h, if_neg, ite_false]
      exact le_trans (by simp) (ih (n / b) ((n % b).digitChar :: l))

/-- A decimal numeral is never the empty string. -/
theorem nat_repr_ne_empty (n : Nat) : Nat.repr n ≠ "" := by
  intro hc
  have hlen : (Nat.repr n).length = 0 := by rw [hc]; rfl
  rw [Nat.repr, Nat.toDigits] at hlen
  have h1 : 1 ≤ (Nat.toDigitsCore 10 (n + 1) n []).length := by
    rw [Nat.toDigitsCore]
    by_cases h : n / 10 = 0
    · simp [h]
    · simp only [h, if_neg, ite_false]
      exact le_trans (by simp) (toDigitsCore_length_ge 10 n (n / 10) [(n % 10).digitChar])
  have h2 : ((Nat.toDigitsCore 10 (n + 1) n []).asString).length
      = (Nat.toDigitsCore 10 (n + 1) n []).length := rfl
  omega

/-! ### Lemmas about the per-query merge loop -/

/-- Full characterization of a successful run of the per-query loop: one
file and one `retval` entry per paired query, in order; the file of query
`k` holds the merged table and the content-addressed name derived from the
first uniref row, which is also the recorded canonical sequence. -/
theorem gatherQueries_ok_spec (uniref env : List (String × List Fasta)) :
    ∀ (paired : List (String × List Fasta)) (files : List WrittenFile)
      (retval : List (String × String)),
      gatherQueries uniref env paired = (files, Except.ok retval) →
      files.length = paired.length ∧ retval.length = paired.length ∧
      ∀ (k : Nat) (q : String) (P : List Fasta), paired[k]? = some (q, P) →
        ∃ (q0 : Fasta) (tl E : List Fasta),
          dictGet uniref q = some (q0 :: tl) ∧ dictGet env q = some E ∧
          files[k]? = some { basename := expected_basename q0.sequence,
                             table := mergedRows P (q0 :: tl) E } ∧
          retval[k]? = some (q, q0.sequence) := by
  intro paired
  induction paired with
  | nil =>
    intro files retval h
    simp only [gatherQueries] at h
    obtain ⟨h1, h2⟩ := Prod.mk.inj h
    subst h1
    injection h2 with h3
    subst h3
    refine ⟨rfl, rfl, ?_⟩
    intro k q P hk
    simp at hk
  | cons head rest ih =>
    intro files retval h
    obtain ⟨query, pairedRows⟩ := head
    simp only [gatherQueries] at h
    cases hu : dictGet uniref query with
    | none =>
      rw [hu] at h
      cases he : dictGet env query <;> rw [he] at h <;>
        exact absurd (Prod.mk.inj h).2 (by simp)
    | some unirefRows =>
      rw [hu] at h
      cases he : dictGet env query with
      | none =>
        rw [he] at h
        exact absurd (Prod.mk.inj h).2 (by simp)
      | some envRows =>
        rw [he] at h
        cases unirefRows with
        | nil => exact absurd (Prod.mk.inj h).2 (by simp)
        | cons q0 tl =>
          rcases hr : gatherQueries uniref env rest with ⟨files2, res2⟩
          rw [hr] at h
          obtain ⟨h1, h2⟩ := Prod.mk.inj h
          cases res2 with
          | error e => simp [Except.map] at h2
          | ok m =>
            simp only [Except.map] at h2
            injection h2 with h3
            obtain ⟨hf1, hf2, hf3⟩ := ih files2 m hr
            subst h1
            subst h3
            refine ⟨by simp [hf1], by simp [hf2], ?_⟩
            intro k q P hk
            cases k with
            | zero =>
              simp only [List.getElem?_cons_zero, Option.some.injEq] at hk
              obtain ⟨hq, hP⟩ := Prod.mk.inj hk.symm
              subst hq
              subst hP
              exact ⟨q0, tl, envRows, hu, he, by simp, by simp⟩
            | succ k =>
              simp only [List.getElem?_cons_succ] at hk ⊢
              exact hf3 k q P hk

/-- The loop only ever raises `IndexError` or `KeyError`; the consistency
assertions live outside it. -/
theorem gatherQueries_error_shape (uniref env : List (String × List Fasta)) :
    ∀ (paired : List (String × List Fasta)) (files : List WrittenFile)
      (e : StageError),
      gatherQueries uniref env paired = (files, Except.error e) →
      (∃ q, e = StageError.indexError q) ∨ (∃ q, e = StageError.missingQueryId q) := by
  intro paired
  induction paired with
  | nil =>
    intro files e h
    simp only [gatherQueries] at h
    exact absurd (Prod.mk.inj h).2 (by simp)
  | cons head rest ih =>
    intro files e h
    obtain ⟨query, pairedRows⟩ := head
    simp only [gatherQueries] at h
    cases hu : dictGet uniref query with
    | none =>
      rw [hu] at h
      cases he : dictGet env query <;> rw [he] at h <;>
        · injection (Prod.mk.inj h).2 with h3
          exact Or.inr ⟨query, h3.symm⟩
    | some unirefRows =>
      rw [hu] at h
      cases he : dictGet env query with
      | none =>
        rw [he] at h
        injection (Prod.mk.inj h).2 with h3
        exact Or.inr ⟨query, h3.symm⟩
      | some envRows =>
        rw [he] at h
        cases unirefRows with
        | nil =>
          injection (Prod.mk.inj h).2 with h3
          exact Or.inl ⟨query, h3.symm⟩
        | cons q0 tl =>
          rcases hr : gatherQueries uniref env rest with ⟨files2, res2⟩
          rw [hr] at h
          obtain ⟨h1, h2⟩ := Prod.mk.inj h
          cases res2 with
          | error e2 =>
            simp only [Except.map] at h2
            injection h2 with h3
            subst h3
            exact ih files2 e2 hr
          | ok m => simp [Except.map] at h2

/-- A successful run of `gather_colabfold_msas` means both consistency
checks passed and the loop ran. -/
theorem gather_msas_ok_inv (paired uniref env : List (String × List Fasta))
    (files : List WrittenFile) (retval : List (String × String))
    (h : gather_colabfold_msas paired uniref env = (files, Except.ok retval)) :
    gatherQueries uniref env paired = (files, Except.ok retval) := by
  unfold gather_colabfold_msas at h
  split at h
  · split at h
    · exact h
    · exact absurd (Prod.mk.inj h).2 (by simp)
  · exact absurd (Prod.mk.inj h).2 (by simp)

/-- Row count of one merged table. -/
theorem mergedRows_length (P U E : List Fasta) :
    (mergedRows P U E).length = P.length + (U.length - 1) + (E.length - 1) := by
  simp [mergedRows, List.enum_length]
  omega

/-- C1: for every query, the merged annotated-row table is exactly the
concatenation of the annotated paired rows (in original order, identity
row first), the narrow rows minus the identity row, and the broad rows
minus the identity row, without any deduplication, so its length is
`len(paired) + len(narrow) - 1 + len(broad) - 1`. -/
theorem merged_table_concat_and_length
    (paired uniref env : List (String × List Fasta))
    (files : List WrittenFile) (retval : List (String × String))
    (hrun : gather_colabfold_msas paired uniref env = (files, Except.ok retval))
    (k : Nat) (q : String) (P U E : List Fasta)
    (hk : paired[k]? = some (q, P))
    (hU : dictGet uniref q = some U) (hE : dictGet env q = some E)
    (hEne : E ≠ []) :
    ∃ file, files[k]? = some file ∧
      file.table =
        (P.enum.map fun p => pairedRecord p.1 p.2)
          ++ ((U.drop 1).map unirefRecord) ++ ((E.drop 1).map envRecord) ∧
      file.table.length = P.length + U.length - 1 + E.length - 1 := by
  have hloop := gather_msas_ok_inv paired uniref env files retval hrun
  obtain ⟨-, -, hidx⟩ := gatherQueries_ok_spec uniref env paired files retval hloop
  obtain ⟨q0, tl, E2, hu2, he2, hf, -⟩ := hidx k q P hk
  rw [hU] at hu2
  injection hu2 with hu3
  rw [hE] at he2
  injection he2 with he3
  subst hu3
  subst he3
  refine ⟨_, hf, rfl, ?_⟩
  have h1 := mergedRows_length P (q0 :: tl) E
  have h2 : 1 ≤ E.length := List.length_pos.mpr hEne
  simp only [List.length_cons] at h1 ⊢
  omega

/-- Witness for C1 on the spec's fixture: paired 3 rows, narrow 4 rows,
broad 2 rows give a merged table of 7 rows. -/
theorem merged_table_concat_and_length_witness :
    ∃ file, (gather_colabfold_msas fixPaired3 fixUniref4 fixEnv2).1[0]? = some file ∧
      file.table.length = 7 := by
  have h2 : (gather_colabfold_msas fixPaired3 fixUniref4 fixEnv2).2 =
      Except.ok [("q1", "SEQ")] := by decide
  have hrun : gather_colabfold_msas fixPaired3 fixUniref4 fixEnv2 =
      ((gather_colabfold_msas fixPaired3 fixUniref4 fixEnv2).1,
        Except.ok [("q1", "SEQ")]) := by
    rw [← h2]
  obtain ⟨file, hf, -, hlen⟩ :=
    merged_table_concat_and_length fixPaired3 fixUniref4 fixEnv2 _ _ hrun
      0 "q1" [seqRow "SEQ", seqRow "P1", seqRow "P2"]
      [seqRow "SEQ", seqRow "U1", seqRow "U2", seqRow "U3"]
      [seqRow "SEQ", seqRow "E1"]
      (by decide) (by decide) (by decide) (by decide)
  exact ⟨file, hf, by rw [hlen]; rfl⟩

/-- Where row `j` of a merged table comes from: the paired section occupies
positions `[0, len(paired))`, the narrow section the next
`len(narrow) - 1` positions, the broad section the remainder. -/
theorem mergedRows_getElem (P U E : List Fasta) (j : Nat) (r : MSARecord)
    (h : (mergedRows P U E)[j]? = some r) :
    (j < P.length ∧ ∃ x, P[j]? = some x ∧ r = pairedRecord j x) ∨
    (P.length ≤ j ∧ j < P.length + (U.length - 1) ∧
      ∃ x, (U.drop 1)[j - P.length]? = some x ∧ r = unirefRecord x) ∨
    (P.length + (U.length - 1) ≤ j ∧
      ∃ x, (E.drop 1)[j - P.length - (U.length - 1)]? = some x ∧ r = envRecord x) := by
  have hA : (P.enum.map fun p => pairedRecord p.1 p.2).length = P.length := by
    simp [List.enum_length]
  have hB : ((U.drop 1).map unirefRecord).length = U.length - 1 := by simp
  unfold mergedRows at h
  by_cases hj1 : j < P.length
  · left
    have e1 : j < ((P.enum.map fun p => pairedRecord p.1 p.2)
        ++ ((U.drop 1).map unirefRecord)).length := by
      rw [List.length_append, hA, hB]
      omega
    rw [List.getElem?_append_left e1] at h
    have e2 : j < (P.enum.map fun p => pairedRecord p.1 p.2).length := by
      rw [hA]
      exact hj1
    rw [List.getElem?_append_left e2, List.getElem?_map, List.getElem?_enum] at h
    cases hx : P[j]? with
    | none =>
      rw [hx] at h
      simp at h
    | some x =>
      rw [hx] at h
      simp only [Option.map_some'] at h
      injection h with h2
      exact ⟨hj1, x, rfl, h2.symm⟩
  · by_cases hj2 : j < P.length + (U.length - 1)
    · right; left
      have e1 : j < ((P.enum.map fun p => pairedRecord p.1 p.2)
          ++ ((U.drop 1).map unirefRecord)).length := by
        rw [List.length_append, hA, hB]
        omega
      rw [List.getElem?_append_left e1] at h
      have e2 : (P.enum.map fun p => pairedRecord p.1 p.2).length ≤ j := by
        rw [hA]
        omega
      rw [List.getElem?_append_right e2, hA, List.getElem?_map] at h
      cases hx : (U.drop 1)[j - P.length]? with
      | none =>
        rw [hx] at h
        simp at h
      | some x =>
        rw [hx] at h
        simp only [Option.map_some'] at h
        injection h with h2
        exact ⟨by omega, hj2, x, rfl, h2.symm⟩
    · right; right
      have e1 : ((P.enum.map fun p => pairedRecord p.1 p.2)
          ++ ((U.drop 1).map unirefRecord)).length ≤ j := by
        rw [List.length_append, hA, hB]
        omega
      rw [List.getElem?_append_right e1, List.length_append, hA, hB,
        List.getElem?_map] at h
      cases hx : (E.drop 1)[j - (P.length + (U.length - 1))]? with
      | none =>
        rw [hx] at h
        simp at h
      | some x =>
        rw [hx] at h
        simp only [Option.map_some'] at h
        injection h with h2
        refine ⟨by omega, x, ?_, h2.symm⟩
        have e3 : j - P.length - (U.length - 1) = j - (P.length + (U.length - 1)) := by
          omega
        rw [e3]
        exact hx

/-- Paired rows past the identity row are never labeled `QUERY`. -/
theorem countQuery_enumFrom_pos (t : List Fasta) :
    ∀ n : Nat, 0 < n →
      (((List.enumFrom n t).map fun p => pairedRecord p.1 p.2).countP
        fun r => r.source_database == MSADataSource.query) = 0 := by
  induction t with
  | nil => intro n hn; simp
  | cons x t ih =>
    intro n hn
    simp only [List.enumFrom, List.map_cons, List.countP_cons]
    rw [ih (n + 1) (by omega)]
    have hx : (pairedRecord n x).source_database = MSADataSource.uniref90 := by
      simp [pairedRecord, Nat.pos_iff_ne_zero.mp hn]
    simp [hx]

/-- Every merged table of a non-empty paired set has exactly one
`QUERY`-labeled row. -/
theorem mergedRows_count_query (P U E : List Fasta) (hPne : P ≠ []) :
    ((mergedRows P U E).countP fun r => r.source_database == MSADataSource.query)
      = 1 := by
  cases P with
  | nil => exact absurd rfl hPne
  | cons x t =>
    unfold mergedRows
    rw [List.countP_append, List.countP_append]
    have hB : (((U.drop 1).map unirefRecord).countP
        fun r => r.source_database == MSADataSource.query) = 0 := by
      rw [List.countP_eq_zero]
      intro a ha
      obtain ⟨y, -, hy⟩ := List.mem_map.mp ha
      subst hy
      simp [unirefRecord]
    have hC : (((E.drop 1).map envRecord).countP
        fun r => r.source_database == MSADataSource.query) = 0 := by
      rw [List.countP_eq_zero]
      intro a ha
      obtain ⟨y, -, hy⟩ := List.mem_map.mp ha
      subst hy
      simp [envRecord]
    rw [hB, hC, List.enum_cons, List.map_cons, List.countP_cons,
      countQuery_enumFrom_pos t 1 (by omega)]
    simp [pairedRecord]

/-- C3: in every merged table, a row's `pairing_key` is non-empty — namely
the decimal numeral of its index `i` within the paired section, for
`i > 0` — exactly when the row sits in the paired section at a position
past the identity row; narrow rows, broad rows and the identity row carry
an empty `pairing_key`; and exactly one row is labeled `QUERY`. -/
theorem pairing_key_iff_paired_nonidentity
    (paired uniref env : List (String × List Fasta))
    (files : List WrittenFile) (retval : List (String × String))
    (hrun : gather_colabfold_msas paired uniref env = (files, Except.ok retval))
    (k : Nat) (q : String) (P : List Fasta)
    (hk : paired[k]? = some (q, P)) (hPne : P ≠ []) :
    ∃ file, files[k]? = some file ∧
      (file.table.countP fun r => r.source_database == MSADataSource.query) = 1 ∧
      ∀ (j : Nat) (r : MSARecord), file.table[j]? = some r →
        (r.pairing_key ≠ "" ↔ (1 ≤ j ∧ j < P.length)) ∧
        (1 ≤ j → j < P.length → r.pairing_key = Nat.repr j) ∧
        (r.source_database = MSADataSource.query ↔ j = 0) := by
  have hloop := gather_msas_ok_inv paired uniref env files retval hrun
  obtain ⟨-, -, hidx⟩ := gatherQueries_ok_spec uniref env paired files retval hloop
  obtain ⟨q0, tl, E, -, -, hf, -⟩ := hidx k q P hk
  refine ⟨_, hf, mergedRows_count_query P (q0 :: tl) E hPne, ?_⟩
  intro j r hj
  have hP1 : 1 ≤ P.length := List.length_pos.mpr hPne
  rcases mergedRows_getElem P (q0 :: tl) E j r hj with
    ⟨hlt, x, -, rfl⟩ | ⟨hge, -, x, -, rfl⟩ | ⟨hge, x, -, rfl⟩
  · by_cases hj0 : j = 0
    · subst hj0
      refine ⟨by simp [pairedRecord], by omega, by simp [pairedRecord]⟩
    · have hj0p : 0 < j := by omega
      refine ⟨?_, ?_, ?_⟩
      · simp only [pairedRecord, if_pos hj0p]
        exact ⟨fun _ => ⟨by omega, hlt⟩, fun _ => nat_repr_ne_empty j⟩
      · intro h1 h2
        simp [pairedRecord, hj0p]
      · simp [pairedRecord, hj0]
  · refine ⟨?_, ?_, ?_⟩
    · simp only [unirefRecord]
      constructor
      · intro hc
        exact absurd rfl hc
      · intro hc
        omega
    · intro h1 h2
      omega
    · simp only [unirefRecord]
      constructor
      · intro hc
        exact absurd hc (by simp)
      · intro hc
        omega
  · refine ⟨?_, ?_, ?_⟩
    · simp only [envRecord]
      constructor
      · intro hc
        exact absurd rfl hc
      · intro hc
        omega
    · intro h1 h2
      omega
    · simp only [envRecord]
      constructor
      · intro hc
        exact absurd hc (by simp)
      · intro hc
        omega

/-- Witness for C3 on the spec's fixture: the merged table has exactly one
`QUERY` row, and its second row (first paired hit) carries pairing key "1". -/
theorem pairing_key_iff_paired_nonidentity_witness :
    ∃ file, (gather_colabfold_msas fixPaired3 fixUniref4 fixEnv2).1[0]? = some file ∧
      (file.table.countP fun r => r.source_database == MSADataSource.query) = 1 := by
  have h2 : (gather_colabfold_msas fixPaired3 fixUniref4 fixEnv2).2 =
      Except.ok [("q1", "SEQ")] := by decide
  have hrun : gather_colabfold_msas fixPaired3 fixUniref4 fixEnv2 =
      ((gather_colabfold_msas fixPaired3 fixUniref4 fixEnv2).1,
        Except.ok [("q1", "SEQ")]) := by
    rw [← h2]
  obtain ⟨file, hf, hcount, -⟩ :=
    pairing_key_iff_paired_nonidentity fixPaired3 fixUniref4 fixEnv2 _ _ hrun
      0 "q1" [seqRow "SEQ", seqRow "P1", seqRow "P2"] (by decide) (by decide)
  exact ⟨file, hf, hcount⟩

/-- Counterexample to C2: the three alignment sets report pairwise
different identity-row sequences ("XXX" paired, "YYY" narrow, "ZZZ"
broad), yet the reconciliation step succeeds — no consistency error is
raised — and the produced table's `QUERY`-labeled row carries the paired
identity "XXX", not the canonical narrow sequence "YYY". -/
theorem identity_mismatch_no_error :
    gather_colabfold_msas fixPairedX fixUnirefY fixEnvZ =
      ([{ basename := "YYY.aligned.pqt",
          table := [{ sequence := "XXX",
                      source_database := MSADataSource.query,
                      pairing_key := "",
                      comment := "null" }] }],
        Except.ok [("q1", "YYY")]) ∧
    ("XXX" : String) ≠ "YYY" ∧ ("YYY" : String) ≠ "ZZZ" ∧
    ("XXX" : String) ≠ "ZZZ" := by
  exact ⟨by decide, by decide, by decide, by decide⟩

/-- C2 as amended: no identity-row agreement check exists, but in every
merged table that is produced the `QUERY`-labeled row's sequence is the
paired set's identity-row sequence — hence it equals the common identity
sequence whenever the three sets do agree. -/
theorem query_row_sequence_from_paired
    (paired uniref env : List (String × List Fasta))
    (files : List WrittenFile) (retval : List (String × String))
    (hrun : gather_colabfold_msas paired uniref env = (files, Except.ok retval))
    (k : Nat) (q : String) (p0 : Fasta) (t : List Fasta)
    (hk : paired[k]? = some (q, p0 :: t)) :
    ∃ file, files[k]? = some file ∧
      (∀ r ∈ file.table, r.source_database = MSADataSource.query →
        r.sequence = p0.sequence) ∧
      (∀ (u0 : Fasta) (ut : List Fasta) (s : String),
        dictGet uniref q = some (u0 :: ut) →
        p0.sequence = s → u0.sequence = s →
        ∀ r ∈ file.table, r.source_database = MSADataSource.query →
          r.sequence = s) := by
  have hloop := gather_msas_ok_inv paired uniref env files retval hrun
  obtain ⟨-, -, hidx⟩ := gatherQueries_ok_spec uniref env paired files retval hloop
  obtain ⟨q0, tl, E, -, -, hf, -⟩ := hidx k q (p0 :: t) hk
  have hquery : ∀ r ∈ mergedRows (p0 :: t) (q0 :: tl) E,
      r.source_database = MSADataSource.query → r.sequence = p0.sequence := by
    intro r hr hsrc
    obtain ⟨j, hj⟩ := List.mem_iff_getElem?.mp hr
    rcases mergedRows_getElem (p0 :: t) (q0 :: tl) E j r hj with
      ⟨-, x, hx, rfl⟩ | ⟨-, -, x, -, rfl⟩ | ⟨-, x, -, rfl⟩
    · by_cases hj0 : j = 0
      · subst hj0
        simp only [List.getElem?_cons_zero] at hx
        injection hx with hx2
        subst hx2
        rfl
      · exact absurd hsrc (by simp [pairedRecord, hj0])
    · exact absurd hsrc (by simp [unirefRecord])
    · exact absurd hsrc (by simp [envRecord])
  refine ⟨_, hf, hquery, ?_⟩
  intro u0 ut s hu hps hus r hr hsrc
  rw [← hps]
  exact hquery r hr hsrc

/-- C9: the canonical sequence recorded for each query — and the content
hash input of its output file name — is the narrow (uniref) set's identity
row sequence. -/
theorem canonical_sequence_from_narrow
    (paired uniref env : List (String × List Fasta))
    (files : List WrittenFile) (retval : List (String × String))
    (hrun : gather_colabfold_msas paired uniref env = (files, Except.ok retval))
    (k : Nat) (q : String) (P : List Fasta)
    (hk : paired[k]? = some (q, P))
    (u0 : Fasta) (ut : List Fasta)
    (hU : dictGet uniref q = some (u0 :: ut)) :
    retval[k]? = some (q, u0.sequence) ∧
    ∃ file, files[k]? = some file ∧
      file.basename = expected_basename u0.sequence := by
  have hloop := gather_msas_ok_inv paired uniref env files retval hrun
  obtain ⟨-, -, hidx⟩ := gatherQueries_ok_spec uniref env paired files retval hloop
  obtain ⟨q0, tl, E, hu2, -, hf, hret⟩ := hidx k q P hk
  rw [hU] at hu2
  injection hu2 with hu3
  have hq0 : u0 = q0 := (List.cons.inj hu3).1
  subst hq0
  exact ⟨hret, _, hf, rfl⟩

/-- Witness for C9: with identity rows "XXX" (paired), "YYY" (narrow),
"ZZZ" (broad), the recorded canonical sequence and file name come from
"YYY". -/
theorem canonical_sequence_from_narrow_witness :
    ∃ file, (gather_colabfold_msas fixPairedX fixUnirefY fixEnvZ).1[0]? = some file ∧
      file.basename = expected_basename "YYY" ∧
      ("YYY" : String) ≠ "XXX" ∧ ("YYY" : String) ≠ "ZZZ" := by
  have h2 : (gather_colabfold_msas fixPairedX fixUnirefY fixEnvZ).2 =
      Except.ok [("q1", "YYY")] := by decide
  have hrun : gather_colabfold_msas fixPairedX fixUnirefY fixEnvZ =
      ((gather_colabfold_msas fixPairedX fixUnirefY fixEnvZ).1,
        Except.ok [("q1", "YYY")]) := by
    rw [← h2]
  obtain ⟨-, file, hf, hb⟩ :=
    canonical_sequence_from_narrow fixPairedX fixUnirefY fixEnvZ _ _ hrun
      0 "q1" [seqRow "XXX"] (by decide) (seqRow "YYY") [] (by decide)
  exact ⟨file, hf, hb, by decide, by decide⟩

/-- C7: if any two queries of the paired set have hit lists of different
lengths, the whole reconciliation aborts with the consistency error — the
check is made once over the whole paired set — and no output alignment
file is written. -/
theorem ragged_paired_aborts
    (paired uniref env : List (String × List Fasta))
    (k1 k2 : Nat) (q1 q2 : String) (v1 v2 : List Fasta)
    (h1 : paired[k1]? = some (q1, v1)) (h2 : paired[k2]? = some (q2, v2))
    (hne : v1.length ≠ v2.length) :
    gather_colabfold_msas paired uniref env =
      ([], Except.error StageError.pairedLengthMismatch) := by
  have hm1 : (q1, v1) ∈ paired := List.mem_iff_getElem?.mpr ⟨k1, h1⟩
  have hm2 : (q2, v2) ∈ paired := List.mem_iff_getElem?.mpr ⟨k2, h2⟩
  have hl1 : v1.length ∈ paired.map fun kv => kv.2.length :=
    List.mem_map.mpr ⟨(q1, v1), hm1, rfl⟩
  have hl2 : v2.length ∈ paired.map fun kv => kv.2.length :=
    List.mem_map.mpr ⟨(q2, v2), hm2, rfl⟩
  have hcond : ¬ ((paired.map fun kv => kv.2.length).dedup.length = 1) := by
    intro hc
    obtain ⟨a, ha⟩ := List.length_eq_one.mp hc
    have e1 := List.mem_dedup.mpr hl1
    have e2 := List.mem_dedup.mpr hl2
    rw [ha] at e1 e2
    simp only [List.mem_singleton] at e1 e2
    omega
  unfold gather_colabfold_msas
  rw [if_neg hcond]

/-- Witness for C7: a paired set with hit lists of lengths 1 and 2 aborts
with no file written. -/
theorem ragged_paired_aborts_witness :
    gather_colabfold_msas fixRagged fixUnirefY fixEnvZ =
      ([], Except.error StageError.pairedLengthMismatch) :=
  ragged_paired_aborts fixRagged fixUnirefY fixEnvZ 0 1 "q1" "q2"
    [seqRow "SEQ"] [seqRow "SEQ", seqRow "P1"] (by decide) (by decide) (by decide)

/-- Counterexample to C8 as stated: the narrow set carries the extra
identifier "q2", the step does fail on the key-set check, but the raised
error is a bare assertion whose message is empty — it does not name the
missing/extra identifier "q2". -/
theorem key_mismatch_bare_assert :
    (gather_colabfold_msas fixPairedX fixUnirefExtra fixEnvZ).2 =
      Except.error StageError.keySetMismatch ∧
    ("q2" ∈ dictKeys fixUnirefExtra ∧ "q2" ∉ dictKeys fixEnvZ) ∧
    errorMessage StageError.keySetMismatch = "" ∧ ("q2" : String) ≠ "" := by
  exact ⟨by decide, ⟨by decide, by decide⟩, rfl, by decide⟩

/-- C8 as amended: unequal query-identifier sets across the three
alignment sets make the step fail with the key-set consistency error —
whose message is empty rather than naming the offending identifiers — and
equal sets never produce that error. -/
theorem key_set_mismatch_spec
    (paired uniref env : List (String × List Fasta))
    (hlen : (paired.map fun kv => kv.2.length).dedup.length = 1) :
    (¬ (sameSetProp (dictKeys uniref) (dictKeys env) ∧
        sameSetProp (dictKeys env) (dictKeys paired)) →
      gather_colabfold_msas paired uniref env =
        ([], Except.error StageError.keySetMismatch) ∧
      errorMessage StageError.keySetMismatch = "") ∧
    ((sameSetProp (dictKeys uniref) (dictKeys env) ∧
        sameSetProp (dictKeys env) (dictKeys paired)) →
      ∀ (files : List WrittenFile) (e : StageError),
        gather_colabfold_msas paired uniref env = (files, Except.error e) →
        e ≠ StageError.keySetMismatch) := by
  constructor
  · intro h
    have hb : ¬ (sameStringSet (dictKeys uniref) (dictKeys env)
        && sameStringSet (dictKeys env) (dictKeys paired)) = true := by
      intro hc
      rw [Bool.and_eq_true] at hc
      exact h ⟨(sameStringSet_iff _ _).mp hc.1, (sameStringSet_iff _ _).mp hc.2⟩
    constructor
    · unfold gather_colabfold_msas
      rw [if_pos hlen, if_neg hb]
    · rfl
  · intro h files e hrun
    have hb : (sameStringSet (dictKeys uniref) (dictKeys env)
        && sameStringSet (dictKeys env) (dictKeys paired)) = true := by
      rw [Bool.and_eq_true]
      exact ⟨(sameStringSet_iff _ _).mpr h.1, (sameStringSet_iff _ _).mpr h.2⟩
    unfold gather_colabfold_msas at hrun
    rw [if_pos hlen, if_pos hb] at hrun
    rcases gatherQueries_error_shape uniref env paired files e hrun with
      ⟨q, rfl⟩ | ⟨q, rfl⟩ <;> simp

/-- Witness for the amended C8: applying the theorem to the fixture with
the extra identifier "q2" yields the bare consistency failure. -/
theorem key_set_mismatch_spec_witness :
    gather_colabfold_msas fixPairedX fixUnirefExtra fixEnvZ =
      ([], Except.error StageError.keySetMismatch) := by
  refine ((key_set_mismatch_spec fixPairedX fixUnirefExtra fixEnvZ (by decide)).1 ?_).1
  intro hc
  exact absurd ((hc.1 "q2").mp (by decide)) (by decide)

/-- Witness for the amended C2: on the disagreeing fixture, the produced
table's `QUERY` row carries the paired identity "XXX". -/
theorem query_row_sequence_from_paired_witness :
    ∃ file, (gather_colabfold_msas fixPairedX fixUnirefY fixEnvZ).1[0]? = some file ∧
      ∀ r ∈ file.table, r.source_database = MSADataSource.query →
        r.sequence = "XXX" := by
  have h2 : (gather_colabfold_msas fixPairedX fixUnirefY fixEnvZ).2 =
      Except.ok [("q1", "YYY")] := by decide
  have hrun : gather_colabfold_msas fixPairedX fixUnirefY fixEnvZ =
      ((gather_colabfold_msas fixPairedX fixUnirefY fixEnvZ).1,
        Except.ok [("q1", "YYY")]) := by
    rw [← h2]
  obtain ⟨file, hf, hq, -⟩ :=
    query_row_sequence_from_paired fixPairedX fixUnirefY fixEnvZ _ _ hrun
      0 "q1" (seqRow "XXX") [] (by decide)
  exact ⟨file, hf, fun r hr hs => hq r hr hs⟩

/-! ### Template remapping -/

/-- C5: a successful remapping returns a table with the same number of
rows in the same order, every row's `query_id` replaced by its image under
the mapping, and every other column unchanged. -/
theorem template_remap_preserves
    (chain_id_mapping : List (String × String)) (templates out : List TemplateHit)
    (h : gather_colabfold_templates chain_id_mapping templates = Except.ok out) :
    out.length = templates.length ∧
    ∀ (k : Nat) (t : TemplateHit), templates[k]? = some t →
      ∃ cid, dictGet chain_id_mapping t.query_id = some cid ∧
        out[k]? = some { query_id := cid, rest := t.rest } := by
  induction templates generalizing out with
  | nil =>
    simp only [gather_colabfold_templates] at h
    injection h with h2
    subst h2
    refine ⟨rfl, ?_⟩
    intro k t hk
    simp at hk
  | cons hit hits ih =>
    simp only [gather_colabfold_templates] at h
    cases hm : dictGet chain_id_mapping hit.query_id with
    | none =>
      rw [hm] at h
      simp at h
    | some cid =>
      rw [hm] at h
      cases hr : gather_colabfold_templates chain_id_mapping hits with
      | error e =>
        rw [hr] at h
        simp [Except.map] at h
      | ok r =>
        rw [hr] at h
        simp only [Except.map] at h
        injection h with h2
        subst h2
        obtain ⟨ih1, ih2⟩ := ih r hr
        refine ⟨by simp [ih1], ?_⟩
        intro k t hk
        cases k with
        | zero =>
          simp only [List.getElem?_cons_zero, Option.some.injEq] at hk
          subst hk
          exact ⟨cid, hm, by simp⟩
        | succ k =>
          simp only [List.getElem?_cons_succ] at hk ⊢
          exact ih2 k t hk

/-- Witness for C5 on the spec's fixture: rows `(q1, score 10)` and
`(q2, score 5)` become `(A, 10)` and `(B, 5)`. -/
theorem template_remap_preserves_witness :
    ([{ query_id := "A", rest := ["10"] }, { query_id := "B", rest := ["5"] }] :
        List TemplateHit).length = fixHits.length ∧
    ∀ (k : Nat) (t : TemplateHit), fixHits[k]? = some t →
      ∃ cid, dictGet fixMapping t.query_id = some cid ∧
        ([{ query_id := "A", rest := ["10"] },
          { query_id := "B", rest := ["5"] }] : List TemplateHit)[k]? =
          some { query_id := cid, rest := t.rest } :=
  template_remap_preserves fixMapping fixHits
    [{ query_id := "A", rest := ["10"] }, { query_id := "B", rest := ["5"] }]
    (by decide)

/-- C6: the remapping raises the mapping error exactly when some row's
`query_id` is absent from the mapping, the error names such a missing
identifier, and on success every row's identifier was present — no row is
dropped. -/
theorem template_remap_error_iff
    (chain_id_mapping : List (String × String)) (templates : List TemplateHit) :
    ((∃ e, gather_colabfold_templates chain_id_mapping templates = Except.error e) ↔
      ∃ t ∈ templates, dictGet chain_id_mapping t.query_id = none) ∧
    (∀ e, gather_colabfold_templates chain_id_mapping templates = Except.error e →
      ∃ q, e = StageError.missingQueryId q ∧
        ∃ t ∈ templates, t.query_id = q ∧ dictGet chain_id_mapping q = none) ∧
    (∀ out, gather_colabfold_templates chain_id_mapping templates = Except.ok out →
      ∀ t ∈ templates, ∃ cid, dictGet chain_id_mapping t.query_id = some cid) := by
  induction templates with
  | nil =>
    refine ⟨by simp [gather_colabfold_templates], ?_, ?_⟩
    · intro e he
      simp [gather_colabfold_templates] at he
    · intro out hout t ht
      simp at ht
  | cons hit hits ih =>
    obtain ⟨ih1, ih2, ih3⟩ := ih
    cases hm : dictGet chain_id_mapping hit.query_id with
    | none =>
      refine ⟨?_, ?_, ?_⟩
      · constructor
        · intro
          exact ⟨hit, by simp, hm⟩
        · intro
          exact ⟨StageError.missingQueryId hit.query_id, by
            simp only [gather_colabfold_templates]
            rw [hm]⟩
      · intro e he
        simp only [gather_colabfold_templates] at he
        rw [hm] at he
        injection he with h2
        subst h2
        exact ⟨hit.query_id, rfl, hit, by simp, rfl, hm⟩
      · intro out hout
        simp only [gather_colabfold_templates] at hout
        rw [hm] at hout
        simp at hout
    | some cid =>
      cases hr : gather_colabfold_templates chain_id_mapping hits with
      | error e2 =>
        refine ⟨?_, ?_, ?_⟩
        · constructor
          · intro
            obtain ⟨t, ht, hn⟩ := ih1.mp ⟨e2, hr⟩
            exact ⟨t, by simp [ht], hn⟩
          · intro
            refine ⟨e2, ?_⟩
            simp only [gather_colabfold_templates]
            rw [hm, hr]
            rfl
        · intro e he
          simp only [gather_colabfold_templates] at he
          rw [hm, hr] at he
          simp only [Except.map] at he
          injection he with h2
          subst h2
          obtain ⟨q, hq, t, ht, h3, h4⟩ := ih2 _ hr
          exact ⟨q, hq, t, by simp [ht], h3, h4⟩
        · intro out hout
          simp only [gather_colabfold_templates] at hout
          rw [hm, hr] at hout
          simp [Except.map] at hout
      | ok r =>
        refine ⟨?_, ?_, ?_⟩
        · constructor
          · rintro ⟨e, he⟩
            simp only [gather_colabfold_templates] at he
            rw [hm, hr] at he
            simp [Except.map] at he
          · rintro ⟨t, ht, hn⟩
            rcases List.mem_cons.mp ht with rfl | ht2
            · rw [hm] at hn
              cases hn
            · obtain ⟨e, he⟩ := ih1.mpr ⟨t, ht2, hn⟩
              rw [hr] at he
              cases he
        · intro e he
          simp only [gather_colabfold_templates] at he
          rw [hm, hr] at he
          simp [Except.map] at he
        · intro out hout t ht
          rcases List.mem_cons.mp ht with rfl | ht2
          · exact ⟨cid, hm⟩
          · exact ih3 r hr t ht2

/-- Witness for C6: with a mapping lacking "q2", remapping the spec's
fixture rows fails with the mapping error for "q2". -/
theorem template_remap_error_iff_witness :
    (∃ e, gather_colabfold_templates fixMappingA fixHits = Except.error e) ∧
    gather_colabfold_templates fixMappingA fixHits =
      Except.error (StageError.missingQueryId "q2") :=
  ⟨(template_remap_error_iff fixMappingA fixHits).1.mpr
    ⟨{ query_id := "q2", rest := ["5"] }, by decide, by decide⟩,
   by decide⟩

/-! ### The chain-id cross-reference builder -/

/-- The last element of a filtered list is the last matching element of the
original list: it occurs at some position, satisfies the predicate, and no
later position does. -/
theorem getLast?_filter_spec {α : Type} (p : α → Bool) (l : List α) (c : α)
    (h : (l.filter p).getLast? = some c) :
    ∃ j : Nat, l[j]? = some c ∧ p c = true ∧
      ∀ (j2 : Nat) (c2 : α), j < j2 → l[j2]? = some c2 → p c2 = false := by
  induction l generalizing c with
  | nil => simp at h
  | cons x t ih =>
    cases htf : t.filter p with
    | nil =>
      have hnomatch : ∀ a ∈ t, p a = false := by
        intro a ha
        have := List.filter_eq_nil_iff.mp htf a ha
        rwa [Bool.not_eq_true] at this
      by_cases hx : p x = true
      · rw [List.filter_cons_of_pos hx, htf, List.getLast?_singleton] at h
        injection h with h2
        subst h2
        refine ⟨0, by simp, hx, ?_⟩
        intro j2 c2 hlt hc2
        cases j2 with
        | zero => omega
        | succ j2 =>
          rw [List.getElem?_cons_succ] at hc2
          exact hnomatch c2 (List.mem_iff_getElem?.mpr ⟨j2, hc2⟩)
      · rw [List.filter_cons_of_neg hx, htf] at h
        simp at h
    | cons y ys =>
      have hh : (t.filter p).getLast? = some c := by
        by_cases hx : p x = true
        · rw [List.filter_cons_of_pos hx, htf, List.getLast?_cons_cons] at h
          rw [htf]
          exact h
        · rw [List.filter_cons_of_neg hx] at h
          exact h
      obtain ⟨j, hj, hpc, hlater⟩ := ih c hh
      refine ⟨j + 1, by simpa using hj, hpc, ?_⟩
      intro j2 c2 hlt hc2
      cases j2 with
      | zero => omega
      | succ j2 =>
        rw [List.getElem?_cons_succ] at hc2
        exact hlater j2 c2 (by omega) hc2

/-- Full characterization of a successful assignment loop: one output
entry per colabfold identifier, in order, each carrying the chain id of
the last declared chain whose sequence matches. -/
theorem assignChainIds_ok_spec (sequences : List Fasta) :
    ∀ (l m : List (String × String)),
      assignChainIds sequences l = Except.ok m →
      m.length = l.length ∧
      ∀ (k : Nat) (p : String × String), l[k]? = some p →
        ∃ c, (sequences.filter fun s => s.sequence = p.2).getLast? = some c ∧
          m[k]? = some (p.1, header_chain_id c.header) := by
  intro l
  induction l with
  | nil =>
    intro m h
    simp only [assignChainIds] at h
    injection h with h2
    subst h2
    refine ⟨rfl, ?_⟩
    intro k p hk
    simp at hk
  | cons head rest ih =>
    intro m h
    obtain ⟨cfid, seq⟩ := head
    simp only [assignChainIds] at h
    cases hl : (sequences.filter fun s => s.sequence = seq).getLast? with
    | none =>
      rw [hl] at h
      simp at h
    | some c =>
      rw [hl] at h
      cases hr : assignChainIds sequences rest with
      | error e =>
        rw [hr] at h
        simp [Except.map] at h
      | ok m2 =>
        rw [hr] at h
        simp only [Except.map] at h
        injection h with h2
        subst h2
        obtain ⟨ih1, ih2⟩ := ih m2 hr
        refine ⟨by simp [ih1], ?_⟩
        intro k p hk
        cases k with
        | zero =>
          simp only [List.getElem?_cons_zero, Option.some.injEq] at hk
          subst hk
          exact ⟨c, hl, by simp⟩
        | succ k =>
          simp only [List.getElem?_cons_succ] at hk ⊢
          exact ih2 k p hk

/-- The assignment loop succeeds as soon as every colabfold sequence
matches at least one declared chain. -/
theorem assignChainIds_total (sequences : List Fasta) :
    ∀ l : List (String × String),
      (∀ p ∈ l, ∃ c ∈ sequences, c.sequence = p.2) →
      ∃ m, assignChainIds sequences l = Except.ok m := by
  intro l
  induction l with
  | nil =>
    intro h
    exact ⟨[], rfl⟩
  | cons head rest ih =>
    intro h
    obtain ⟨cfid, seq⟩ := head
    obtain ⟨c, hc, hcs⟩ := h (cfid, seq) (by simp)
    have hmem : c ∈ sequences.filter fun s => s.sequence = seq := by
      rw [List.mem_filter]
      exact ⟨hc, by simp [hcs]⟩
    have hne : (sequences.filter fun s => s.sequence = seq) ≠ [] := by
      intro hnil
      rw [hnil] at hmem
      simp at hmem
    obtain ⟨m2, hm2⟩ := ih fun p hp => h p (by simp [hp])
    cases hl : (sequences.filter fun s => s.sequence = seq).getLast? with
    | none => exact absurd (List.getLast?_eq_none_iff.mp hl) hne
    | some c2 =>
      refine ⟨(cfid, header_chain_id c2.header) :: m2, ?_⟩
      simp only [assignChainIds]
      rw [hl, hm2]
      rfl

/-- A successful build means the sequence-set check passed and the
assignment loop produced the mapping. -/
theorem build_ok_inv (colabfold_id_to_seq : List (String × String))
    (sequences : List Fasta) (m : List (String × String))
    (h : build_chain_id_mapping colabfold_id_to_seq sequences = Except.ok m) :
    assignChainIds sequences colabfold_id_to_seq = Except.ok m := by
  unfold build_chain_id_mapping at h
  split at h
  · exact h
  · exact Except.noConfusion h

/-- C4: the cross-reference construction fails when the canonical
sequences do not form the same set as the declared chain sequences; and
with pairwise distinct declared sequences (and the data model's one
identifier per distinct sequence) the produced mapping is total on the
upstream identifiers, injective into declared chain ids, and sends each
identifier to the id of the unique declared chain with its sequence. -/
theorem chain_id_mapping_spec (colabfold_id_to_seq : List (String × String))
    (sequences : List Fasta) :
    (¬ sameSetProp (colabfold_id_to_seq.map fun kv => kv.2)
        (sequences.map fun f => f.sequence) →
      build_chain_id_mapping colabfold_id_to_seq sequences =
        Except.error StageError.seqSetMismatch) ∧
    (sameSetProp (colabfold_id_to_seq.map fun kv => kv.2)
        (sequences.map fun f => f.sequence) →
      (sequences.map fun f => f.sequence).Nodup →
      (colabfold_id_to_seq.map fun kv => kv.2).Nodup →
      (sequences.map fun c => header_chain_id c.header).Nodup →
      ∃ m, build_chain_id_mapping colabfold_id_to_seq sequences = Except.ok m ∧
        m.map (fun kv => kv.1) = colabfold_id_to_seq.map (fun kv => kv.1) ∧
        (∀ (k : Nat) (id s : String), colabfold_id_to_seq[k]? = some (id, s) →
          ∃ c, c ∈ sequences ∧ c.sequence = s ∧
            (∀ c2 ∈ sequences, c2.sequence = s → c2 = c) ∧
            m[k]? = some (id, header_chain_id c.header)) ∧
        (∀ (k1 k2 : Nat) (e1 e2 : String × String),
          m[k1]? = some e1 → m[k2]? = some e2 → e1.2 = e2.2 → k1 = k2)) := by
  constructor
  · intro hset
    have hb : ¬ (sameStringSet (colabfold_id_to_seq.map fun kv => kv.2)
        (sequences.map fun f => f.sequence)) = true := by
      intro hc
      exact hset ((sameStringSet_iff _ _).mp hc)
    unfold build_chain_id_mapping
    rw [if_neg hb]
  · intro hset hseqN hvalN hidN
    have htot : ∀ p ∈ colabfold_id_to_seq, ∃ c ∈ sequences, c.sequence = p.2 := by
      intro p hp
      have hv : p.2 ∈ sequences.map fun f => f.sequence :=
        (hset p.2).mp (List.mem_map.mpr ⟨p, hp, rfl⟩)
      obtain ⟨c, hc, hcs⟩ := List.mem_map.mp hv
      exact ⟨c, hc, hcs⟩
    obtain ⟨m, hm⟩ := assignChainIds_total sequences colabfold_id_to_seq htot
    have hbuild : build_chain_id_mapping colabfold_id_to_seq sequences =
        Except.ok m := by
      unfold build_chain_id_mapping
      rw [if_pos ((sameStringSet_iff _ _).mpr hset)]
      exact hm
    obtain ⟨hlen, hidx⟩ := assignChainIds_ok_spec sequences colabfold_id_to_seq m hm
    have hentry : ∀ (k : Nat) (p : String × String),
        colabfold_id_to_seq[k]? = some p →
        ∃ c, c ∈ sequences ∧ c.sequence = p.2 ∧
          m[k]? = some (p.1, header_chain_id c.header) := by
      intro k p hk
      obtain ⟨c, hlast, hmk⟩ := hidx k p hk
      obtain ⟨j, hj, hpc, -⟩ := getLast?_filter_spec _ _ _ hlast
      exact ⟨c, List.mem_iff_getElem?.mpr ⟨j, hj⟩, by simpa using hpc, hmk⟩
    refine ⟨m, hbuild, ?_, ?_, ?_⟩
    · apply List.ext_getElem?
      intro i
      rw [List.getElem?_map, List.getElem?_map]
      cases hI : colabfold_id_to_seq[i]? with
      | none =>
        have hIn : m[i]? = none := by
          rw [List.getElem?_eq_none_iff] at hI ⊢
          omega
        rw [hIn]
      | some p =>
        obtain ⟨c, -, -, hmk⟩ := hentry i p hI
        rw [hmk]
        rfl
    · intro k id s hk
      obtain ⟨c, hcm, hcs, hmk⟩ := hentry k (id, s) hk
      refine ⟨c, hcm, hcs, ?_, hmk⟩
      intro c2 hc2 hc2s
      exact List.inj_on_of_nodup_map hseqN hc2 hcm (by rw [hc2s, hcs])
    · intro k1 k2 e1 e2 h1 h2 heq
      have hk1 : k1 < m.length := (List.getElem?_eq_some.mp h1).1
      have hk2 : k2 < m.length := (List.getElem?_eq_some.mp h2).1
      cases hI1 : colabfold_id_to_seq[k1]? with
      | none =>
        rw [List.getElem?_eq_none_iff] at hI1
        omega
      | some p1 =>
        cases hI2 : colabfold_id_to_seq[k2]? with
        | none =>
          rw [List.getElem?_eq_none_iff] at hI2
          omega
        | some p2 =>
          obtain ⟨c1, hcm1, hcs1, hmk1⟩ := hentry k1 p1 hI1
          obtain ⟨c2, hcm2, hcs2, hmk2⟩ := hentry k2 p2 hI2
          rw [h1] at hmk1
          injection hmk1 with hh1
          rw [h2] at hmk2
          injection hmk2 with hh2
          have hcc : c1 = c2 := by
            apply List.inj_on_of_nodup_map hidN hcm1 hcm2
            have h3 : e1.2 = header_chain_id c1.header := by rw [hh1]
            have h4 : e2.2 = header_chain_id c2.header := by rw [hh2]
            rw [← h3, ← h4]
            exact heq
          have hss : p1.2 = p2.2 := by
            rw [← hcs1, ← hcs2, hcc]
          apply List.getElem?_inj (by simp; omega) hvalN
          rw [List.getElem?_map, List.getElem?_map, hI1, hI2]
          simp [hss]

/-- Witness for C4 on the spec's fixture: chains "AAA","BBB" and queries
q1, q2 give exactly the mapping q1 to "A", q2 to "B"; it is total on
the identifiers and injective. -/
theorem chain_id_mapping_spec_witness :
    build_chain_id_mapping fixIdsAB fixChainsAB =
      Except.ok [("q1", "A"), ("q2", "B")] ∧
    ∃ m, build_chain_id_mapping fixIdsAB fixChainsAB = Except.ok m ∧
      m.map (fun kv => kv.1) = ["q1", "q2"] ∧
      (∀ (k1 k2 : Nat) (e1 e2 : String × String),
        m[k1]? = some e1 → m[k2]? = some e2 → e1.2 = e2.2 → k1 = k2) := by
  refine ⟨by decide, ?_⟩
  have hset : sameSetProp (fixIdsAB.map fun kv => kv.2)
      (fixChainsAB.map fun f => f.sequence) := by
    have h1 : (fixIdsAB.map fun kv => kv.2) = ["AAA", "BBB"] := by decide
    have h2 : (fixChainsAB.map fun f => f.sequence) = ["AAA", "BBB"] := by decide
    intro x
    rw [h1, h2]
  obtain ⟨m, hm, hkeys, -, hinj⟩ :=
    (chain_id_mapping_spec fixIdsAB fixChainsAB).2 hset
      (by decide) (by decide) (by decide)
  refine ⟨m, hm, ?_, hinj⟩
  rw [hkeys]
  decide

/-- C10: with a successful build, each upstream identifier is assigned the
chain id of the last declared chain (in declared order) whose sequence
equals its canonical sequence, and identifiers sharing a canonical
sequence receive the same chain id. -/
theorem homo_multimer_last_match (colabfold_id_to_seq : List (String × String))
    (sequences : List Fasta) (m : List (String × String))
    (h : build_chain_id_mapping colabfold_id_to_seq sequences = Except.ok m) :
    (∀ (k : Nat) (id s : String), colabfold_id_to_seq[k]? = some (id, s) →
      ∃ (j : Nat) (c : Fasta), sequences[j]? = some c ∧ c.sequence = s ∧
        (∀ (j2 : Nat) (c2 : Fasta), j < j2 → sequences[j2]? = some c2 →
          c2.sequence ≠ s) ∧
        m[k]? = some (id, header_chain_id c.header)) ∧
    (∀ (k1 k2 : Nat) (id1 id2 s : String),
      colabfold_id_to_seq[k1]? = some (id1, s) →
      colabfold_id_to_seq[k2]? = some (id2, s) →
      ∃ cid, m[k1]? = some (id1, cid) ∧ m[k2]? = some (id2, cid)) := by
  have hok := build_ok_inv colabfold_id_to_seq sequences m h
  obtain ⟨-, hidx⟩ := assignChainIds_ok_spec sequences colabfold_id_to_seq m hok
  constructor
  · intro k id s hk
    obtain ⟨c, hlast, hmk⟩ := hidx k (id, s) hk
    obtain ⟨j, hj, hpc, hlater⟩ := getLast?_filter_spec _ _ _ hlast
    refine ⟨j, c, hj, by simpa using hpc, ?_, hmk⟩
    intro j2 c2 hlt hc2
    have := hlater j2 c2 hlt hc2
    simpa using this
  · intro k1 k2 id1 id2 s hk1 hk2
    obtain ⟨c1, hlast1, hmk1⟩ := hidx k1 (id1, s) hk1
    obtain ⟨c2, hlast2, hmk2⟩ := hidx k2 (id2, s) hk2
    rw [hlast1] at hlast2
    injection hlast2 with hcc
    subst hcc
    exact ⟨header_chain_id c1.header, hmk1, hmk2⟩

/-- Witness for C10: a homo-dimer with both chains "AAA" assigns both
upstream identifiers the id "B" of the last matching chain. -/
theorem homo_multimer_last_match_witness :
    build_chain_id_mapping fixIdsAA fixChainsAA =
      Except.ok [("q1", "B"), ("q2", "B")] ∧
    ∃ cid, ([("q1", "B"), ("q2", "B")] : List (String × String))[0]? =
        some ("q1", cid) ∧
      ([("q1", "B"), ("q2", "B")] : List (String × String))[1]? =
        some ("q2", cid) :=
  ⟨by decide,
   (homo_multimer_last_match fixIdsAA fixChainsAA _ (by decide)).2
     0 1 "q1" "q2" "AAA" (by decide) (by decide)⟩

end StageForChai
